import Mathlib

/-!
Shallow embedding of the manufacturing-oee repository core
(src/app.py, src/app1.py, src/live_data_writer.py).

Modelling conventions:
- Python floats are modelled as rationals.  All claims checked here are
  order and bound properties, which the rational model preserves.
- Random draws (numpy normal and uniform drift, the anomaly onset test
  `random.random() < ANOMALY_PROBABILITY`, `random.randint` results) are
  passed in explicitly as a `Draws` record; range facts guaranteed by the
  random primitives (for example `random.randint(4, 7)` lies in [4, 7])
  appear as hypotheses on the draws.
- `round(x, 2)` is modelled as rounding to the nearest multiple of 1/100
  (`round2`).  Python rounds exact halves to even while `round2` rounds
  them up; every property proved here only uses that `round2` is monotone
  and exact on multiples of 1/100, which both variants satisfy.
- Timestamps are integers (seconds).  Calendar-day bucketing in a fixed
  offset timezone (pytz Asia/Kolkata, UTC+5:30 = 19800 s) is modelled by
  floor division of the shifted timestamp by 86400.
-/

/-- One telemetry reading, mirroring the rows built in
`generate_live_data` (src/app.py lines 119-126) and the
`machine_telemetry` rows of src/app1.py.  The `anomaly` field carries the
0/1 integer the code stores. -/
structure Sample where
  timestamp : ℤ
  machine_id : String
  temperature : ℚ
  vibration : ℚ
  units : ℕ
  anomaly : ℕ
deriving DecidableEq, Repr

/-- Per-machine simulator state, mirroring
`st.session_state.machine_state[m]` (src/app.py lines 73-82). -/
structure MachineState where
  temp : ℚ
  vib : ℚ
  anomaly_active : Bool
  anomaly_steps : ℤ
deriving DecidableEq, Repr

/-- The random draws consumed by one machine in one tick of
`generate_live_data` (src/app.py lines 94-117).  `onset` stands for the
boolean outcome of `random.random() < ANOMALY_PROBABILITY`; `episodeLen`
for `random.randint(4, 7)`; `unitsNormal` for `random.randint(12, 18)`;
`unitsDegraded` for `random.randint(6, 10)`. -/
structure Draws where
  driftT : ℚ
  driftV : ℚ
  onset : Bool
  episodeLen : ℤ
  excT : ℚ
  excV : ℚ
  unitsNormal : ℕ
  unitsDegraded : ℕ
deriving DecidableEq, Repr

/-- The fixed machine fleet (src/app.py line 30). -/
def MACHINES : List String := ["M-1", "M-2", "M-3", "M-4", "M-5"]

/-- Per-machine baseline pairs (src/app.py lines 45-51). -/
def BASELINES : List (String × ℚ × ℚ) :=
  [("M-1", 68, 5/2), ("M-2", 70, 3), ("M-3", 66, 11/5),
   ("M-4", 72, 7/2), ("M-5", 69, 14/5)]

/-- Initial per-machine state (src/app.py lines 73-82): baseline values,
no anomaly, zero countdown. -/
def initState (tempBase vibBase : ℚ) : MachineState :=
  { temp := tempBase, vib := vibBase, anomaly_active := false, anomaly_steps := 0 }

/-- Rounding to two decimal places, modelling `round(x, 2)`
(src/app.py lines 122-123). -/
def round2 (q : ℚ) : ℚ := (⌊q * 100 + 1/2⌋ : ℤ) / 100

/-- State part of the per-machine loop body of `generate_live_data`
(src/app.py lines 94-115): drift, anomaly onset, anomaly effect and
countdown decrement, then clamping to the physical limits. -/
def stepState (s : MachineState) (d : Draws) : MachineState :=
  let temp0 := s.temp + d.driftT
  let vib0 := s.vib + d.driftV
  let active1 := if !s.anomaly_active && d.onset then true else s.anomaly_active
  let steps1 := if !s.anomaly_active && d.onset then d.episodeLen else s.anomaly_steps
  let temp1 := if active1 then temp0 + d.excT else temp0
  let vib1 := if active1 then vib0 + d.excV else vib0
  let steps2 := if active1 then steps1 - 1 else steps1
  let active2 := if active1 then (if steps2 ≤ 0 then false else true) else active1
  { temp := max 60 (min temp1 95),
    vib := max (3/2) (min vib1 8),
    anomaly_active := active2,
    anomaly_steps := steps2 }

/-- Full per-machine loop body of `generate_live_data`
(src/app.py lines 91-126): the updated state together with the emitted
row.  The local `anomaly` variable of the code is 1 exactly when the
anomaly flag is set after the onset step (before the countdown
decrement), and `units` is drawn from the normal or degraded draw
according to it. -/
def stepMachine (t : ℤ) (m : String) (s : MachineState) (d : Draws) :
    MachineState × Sample :=
  let s2 := stepState s d
  let anomaly : ℕ :=
    if (if !s.anomaly_active && d.onset then true else s.anomaly_active) then 1 else 0
  let units := if anomaly == 0 then d.unitsNormal else d.unitsDegraded
  (s2,
   { timestamp := t, machine_id := m,
     temperature := round2 s2.temp, vibration := round2 s2.vib,
     units := units, anomaly := anomaly })

/-- Iterated per-machine state evolution over a list of per-tick draws. -/
def runMachine (s : MachineState) (ds : List Draws) : MachineState :=
  ds.foldl stepState s

/-- One call of `generate_live_data` (src/app.py lines 87-128): the
timestamp is captured once, then every machine is stepped in fleet order;
the call returns the updated states and the emitted batch. -/
def generate_live_data (t : ℤ) (states : List MachineState) (draws : List Draws) :
    List MachineState × List Sample :=
  let results :=
    List.zipWith (fun (m : String) (sd : MachineState × Draws) => stepMachine t m sd.1 sd.2)
      MACHINES (states.zip draws)
  (results.map Prod.fst, results.map Prod.snd)

/-- Timestamp order on samples (append order equals timestamp order in
the store). -/
def tsLe (a b : Sample) : Prop := a.timestamp ≤ b.timestamp

instance : DecidableRel tsLe :=
  fun a b => inferInstanceAs (Decidable (a.timestamp ≤ b.timestamp))

/-- Latest reading: the last row of the timestamp-ordered frame
(`filtered_df.iloc[-1]`, src/app.py line 164, src/app1.py line 158),
guarded by an emptiness check that the callers branch on
(src/app.py lines 160-162, src/app1.py lines 151-154); the empty case is
the EmptyInputError outcome, modelled as `none`. -/
def latest : List Sample → Option Sample
  | [] => none
  | [s] => some s
  | _ :: rest => latest rest

/-- Three-tier machine status (src/app1.py lines 166-171). -/
inductive Status where
  | NORMAL
  | WARNING
  | CRITICAL
deriving DecidableEq, Repr

/-- Classification thresholds; the code hardcodes the defaults
(src/app1.py lines 163-164). -/
structure Thresholds where
  tempWarning : ℚ
  tempCritical : ℚ
  vibWarning : ℚ
  vibCritical : ℚ
deriving DecidableEq, Repr

/-- The default thresholds of the code: TEMP_WARNING, TEMP_CRITICAL = 80, 85
and VIB_WARNING, VIB_CRITICAL = 6.5, 7.5 (src/app1.py lines 163-164). -/
def defaultThresholds : Thresholds :=
  { tempWarning := 80, tempCritical := 85, vibWarning := 13/2, vibCritical := 15/2 }

/-- The status chain of src/app1.py lines 166-171. -/
def classify (s : Sample) (th : Thresholds) : Status :=
  if th.tempCritical ≤ s.temperature ∨ th.vibCritical ≤ s.vibration then .CRITICAL
  else if th.tempWarning ≤ s.temperature ∨ th.vibWarning ≤ s.vibration then .WARNING
  else .NORMAL

/-- Calendar date of a timestamp in a fixed-offset timezone, as a day
number: floor division of the offset-shifted instant by the day length.
Models the tz-convert plus `.dt.date` bucketing of src/app.py
lines 155-156 and src/app1.py line 249. -/
def dateInTz (off ts : ℤ) : ℤ := (ts + off).fdiv 86400

/-- Offset of pytz Asia/Kolkata, in seconds (src/app.py line 23). -/
def IST_OFFSET : ℤ := 19800

/-- First row attaining the maximum temperature, mirroring pandas
`df.loc[df["temperature"].idxmax()]` (src/app.py line 226,
src/app1.py line 252): `idxmax` returns the first index with the
maximal value. -/
def idxmaxTemp : List Sample → Option Sample
  | [] => none
  | s :: rest =>
    match idxmaxTemp rest with
    | none => some s
    | some b => if s.temperature < b.temperature then some b else some s

/-- Daily peak: restrict to the rows whose calendar date in the given
timezone is `day` (src/app.py line 223, src/app1.py line 249), then take
the first row with maximal temperature; `none` when the day has no rows
(the code skips the panel in that case, src/app.py line 225). -/
def dailyPeak (samples : List Sample) (day off : ℤ) : Option Sample :=
  idxmaxTemp (samples.filter (fun s => dateInTz off s.timestamp == day))

/-- The closed window around a center timestamp
(src/app1.py lines 260-263): both endpoints inclusive, order preserved
by the row filter. -/
def contextWindow (samples : List Sample) (center radius : ℤ) : List Sample :=
  samples.filter (fun s => decide (center - radius ≤ s.timestamp) &&
    decide (s.timestamp ≤ center + radius))

/-- Append of a batch to the store
(`pd.concat([st.session_state.data, new_data])`, src/app.py
lines 137-140): existing rows kept in order, batch rows appended after
them in batch order. -/
def appendStore (store batch : List Sample) : List Sample := store ++ batch

/-- Store query for one machine over the full time range
(`df[df["machine_id"] == selected_machine]`, src/app.py line 158). -/
def queryStore (store : List Sample) (m : String) : List Sample :=
  store.filter (fun s => s.machine_id == m)

/-- Sample at 10:00 IST with temperature 70, on day 0 of the timestamp
scale (10:00 IST is 36000 s after the IST midnight, so the UTC instant
is 36000 - 19800). -/
def sampleA : Sample :=
  { timestamp := 16200, machine_id := "M-1", temperature := 70,
    vibration := 3, units := 15, anomaly := 0 }

/-- Sample at 10:05 IST with temperature 92. -/
def sampleB : Sample :=
  { timestamp := 16500, machine_id := "M-1", temperature := 92,
    vibration := 3, units := 15, anomaly := 0 }

/-- Sample at 10:10 IST with temperature 81. -/
def sampleC : Sample :=
  { timestamp := 16800, machine_id := "M-1", temperature := 81,
    vibration := 3, units := 15, anomaly := 0 }

/-- Concrete draws used below for witness instances: no drift, no fresh
onset. -/
def calmDraws : Draws :=
  { driftT := 0, driftV := 0, onset := false, episodeLen := 5,
    excT := 1, excV := 3/10, unitsNormal := 15, unitsDegraded := 6 }

/-- Concrete draws that trigger an anomaly onset with episode length 4. -/
def onsetDraws : Draws :=
  { driftT := 0, driftV := 0, onset := true, episodeLen := 4,
    excT := 1, excV := 3/10, unitsNormal := 15, unitsDegraded := 6 }

/-- A machine state on the last tick of an anomaly episode: flag set,
one remaining countdown step. -/
def ctrState : MachineState :=
  { temp := 70, vib := 3, anomaly_active := true, anomaly_steps := 1 }

/-- A concrete per-tick draw record: no drift, no fresh onset, normal
units draw 15, degraded units draw 6. -/
def ctrDraws : Draws :=
  { driftT := 0, driftV := 0, onset := false, episodeLen := 4,
    excT := 1, excV := 3/10, unitsNormal := 15, unitsDegraded := 6 }

/-- A sample exactly at the critical temperature threshold, with a low
vibration, to exercise the CRITICAL branch on temperature alone. -/
def hotSample : Sample :=
  { timestamp := 0, machine_id := "M-4", temperature := 85,
    vibration := 1, units := 10, anomaly := 0 }

/-- A sample at temperature 84.99 with vibration below the warning
threshold. -/
def warmSample : Sample :=
  { timestamp := 0, machine_id := "M-4", temperature := 8499/100,
    vibration := 2, units := 10, anomaly := 0 }

/-! Helper lemmas about the per-machine step. -/

theorem stepMachine_fst (t : ℤ) (m : String) (s : MachineState) (d : Draws) :
    (stepMachine t m s d).1 = stepState s d := rfl

theorem stepMachine_timestamp (t : ℤ) (m : String) (s : MachineState) (d : Draws) :
    (stepMachine t m s d).2.timestamp = t := rfl

theorem stepMachine_machine (t : ℤ) (m : String) (s : MachineState) (d : Draws) :
    (stepMachine t m s d).2.machine_id = m := rfl

theorem stepMachine_temperature (t : ℤ) (m : String) (s : MachineState) (d : Draws) :
    (stepMachine t m s d).2.temperature = round2 (stepState s d).temp := rfl

theorem stepMachine_vibration (t : ℤ) (m : String) (s : MachineState) (d : Draws) :
    (stepMachine t m s d).2.vibration = round2 (stepState s d).vib := rfl

theorem stepState_temp_eq (s : MachineState) (d : Draws) :
    ∃ x, (stepState s d).temp = max 60 (min x 95) := ⟨_, rfl⟩

theorem stepState_vib_eq (s : MachineState) (d : Draws) :
    ∃ x, (stepState s d).vib = max (3/2) (min x 8) := ⟨_, rfl⟩

theorem ite_nonpos_eq_decide (x : ℤ) :
    (if x ≤ 0 then false else true) = decide (0 < x) := by
  by_cases hx : x ≤ 0
  · rw [if_pos hx, (decide_eq_false (by omega) : decide (0 < x) = false)]
  · rw [if_neg hx, (decide_eq_true (by omega) : decide (0 < x) = true)]

theorem stepState_of_active (s : MachineState) (d : Draws) (h : s.anomaly_active = true) :
    (stepState s d).anomaly_steps = s.anomaly_steps - 1 ∧
    (stepState s d).anomaly_active = decide (0 < s.anomaly_steps - 1) := by
  constructor
  · simp [stepState, h]
  · simp [stepState, h, ite_nonpos_eq_decide]
    rw [← decide_not]
    exact decide_eq_decide.mpr (by omega)

theorem stepState_of_onset (s : MachineState) (d : Draws)
    (h : s.anomaly_active = false) (ho : d.onset = true) :
    (stepState s d).anomaly_steps = d.episodeLen - 1 ∧
    (stepState s d).anomaly_active = decide (0 < d.episodeLen - 1) := by
  constructor
  · simp [stepState, h, ho]
  · simp [stepState, h, ho, ite_nonpos_eq_decide]
    rw [← decide_not]
    exact decide_eq_decide.mpr (by omega)

theorem stepState_of_idle (s : MachineState) (d : Draws)
    (h : s.anomaly_active = false) (ho : d.onset = false) :
    (stepState s d).anomaly_steps = s.anomaly_steps ∧
    (stepState s d).anomaly_active = false := by
  simp [stepState, h, ho]

theorem runMachine_nil (s : MachineState) : runMachine s [] = s := rfl

theorem runMachine_cons (s : MachineState) (d : Draws) (ds : List Draws) :
    runMachine s (d :: ds) = runMachine (stepState s d) ds := rfl

theorem stepState_inv (s : MachineState) (d : Draws) (h4 : 4 ≤ d.episodeLen)
    (h1 : s.anomaly_active = decide (0 < s.anomaly_steps)) (h2 : 0 ≤ s.anomaly_steps) :
    (stepState s d).anomaly_active = decide (0 < (stepState s d).anomaly_steps) ∧
    0 ≤ (stepState s d).anomaly_steps := by
  cases hA : s.anomaly_active with
  | true =>
    have hpos : 0 < s.anomaly_steps := by
      rw [hA] at h1; exact of_decide_eq_true h1.symm
    obtain ⟨hs, ha⟩ := stepState_of_active s d hA
    rw [hs, ha]
    exact ⟨rfl, by omega⟩
  | false =>
    cases hO : d.onset with
    | true =>
      obtain ⟨hs, ha⟩ := stepState_of_onset s d hA hO
      rw [hs, ha]
      exact ⟨rfl, by omega⟩
    | false =>
      obtain ⟨hs, ha⟩ := stepState_of_idle s d hA hO
      rw [hs, ha]
      rw [hA] at h1
      exact ⟨h1, h2⟩

theorem runMachine_inv (ds : List Draws) : ∀ s : MachineState,
    (∀ d ∈ ds, 4 ≤ d.episodeLen) →
    s.anomaly_active = decide (0 < s.anomaly_steps) → 0 ≤ s.anomaly_steps →
    (runMachine s ds).anomaly_active = decide (0 < (runMachine s ds).anomaly_steps) ∧
    0 ≤ (runMachine s ds).anomaly_steps := by
  induction ds with
  | nil => exact fun s _ h1 h2 => ⟨h1, h2⟩
  | cons d ds2 ih =>
    intro s hd h1 h2
    rw [runMachine_cons]
    obtain ⟨g1, g2⟩ := stepState_inv s d (hd d (List.mem_cons_self d ds2)) h1 h2
    exact ih (stepState s d) (fun x hx => hd x (List.mem_cons_of_mem _ hx)) g1 g2

theorem runMachine_countdown (k : ℕ) : ∀ (ds : List Draws) (s : MachineState) (mm : ℤ),
    s.anomaly_active = true → s.anomaly_steps = mm → 0 < mm → (k : ℤ) ≤ mm → k ≤ ds.length →
    (runMachine s (ds.take k)).anomaly_steps = mm - k ∧
    (runMachine s (ds.take k)).anomaly_active = decide ((k : ℤ) < mm) := by
  induction k with
  | zero =>
    intro ds s mm hA hS hpos _ _
    rw [List.take_zero, runMachine_nil]
    constructor
    · rw [hS]; push_cast; ring
    · rw [hA]; exact (decide_eq_true (by exact_mod_cast hpos)).symm
  | succ k ih =>
    intro ds s mm hA hS hpos hk hlen
    cases ds with
    | nil => simp at hlen
    | cons d ds2 =>
      rw [List.take_succ_cons, runMachine_cons]
      obtain ⟨hs2, ha2⟩ := stepState_of_active s d hA
      by_cases hm : 0 < mm - 1
      · have hA2 : (stepState s d).anomaly_active = true := by
          rw [ha2, hS]; exact decide_eq_true hm
        have hS2 : (stepState s d).anomaly_steps = mm - 1 := by rw [hs2, hS]
        obtain ⟨r1, r2⟩ := ih ds2 (stepState s d) (mm - 1) hA2 hS2 hm
          (by push_cast at hk ⊢; omega) (by simpa using hlen)
        constructor
        · rw [r1]; push_cast; ring
        · rw [r2]; exact decide_eq_decide.mpr (by push_cast; omega)
      · have hk0 : k = 0 := by push_cast at hk; omega
        subst hk0
        rw [List.take_zero, runMachine_nil]
        constructor
        · rw [hs2, hS]; push_cast; ring
        · rw [ha2, hS]
          have hmm : mm = 1 := by omega
          rw [hmm]
          norm_num

theorem round2_bounds (a b : ℤ) (x : ℚ) (h1 : (a : ℚ)/100 ≤ x) (h2 : x ≤ (b : ℚ)/100) :
    (a : ℚ)/100 ≤ round2 x ∧ round2 x ≤ (b : ℚ)/100 := by
  have h100 : (0 : ℚ) < 100 := by norm_num
  have hfl : a ≤ ⌊x * 100 + 1/2⌋ := Int.le_floor.mpr (by push_cast; linarith)
  have hfu : ⌊x * 100 + 1/2⌋ ≤ b := by
    have hq : ((⌊x * 100 + 1/2⌋ : ℤ) : ℚ) < (b : ℚ) + 1 :=
      lt_of_le_of_lt (Int.floor_le _) (by linarith)
    have hq2 : ⌊x * 100 + 1/2⌋ < b + 1 := by exact_mod_cast hq
    omega
  unfold round2
  constructor
  · exact (div_le_div_right h100).mpr (by exact_mod_cast hfl)
  · exact (div_le_div_right h100).mpr (by exact_mod_cast hfu)

/-- C1: every emitted sample has temperature clamped to [60, 95] and
vibration clamped to [1.5, 8], with the 2-decimal rounding at emission
staying inside those bounds; the post-tick machine state satisfies the
same bounds. -/
theorem sample_physical_bounds (t : ℤ) (m : String) (s : MachineState) (d : Draws) :
    60 ≤ (stepMachine t m s d).2.temperature ∧ (stepMachine t m s d).2.temperature ≤ 95 ∧
    3/2 ≤ (stepMachine t m s d).2.vibration ∧ (stepMachine t m s d).2.vibration ≤ 8 ∧
    60 ≤ (stepState s d).temp ∧ (stepState s d).temp ≤ 95 ∧
    3/2 ≤ (stepState s d).vib ∧ (stepState s d).vib ≤ 8 := by
  obtain ⟨x, hx⟩ := stepState_temp_eq s d
  obtain ⟨y, hy⟩ := stepState_vib_eq s d
  have ht1 : 60 ≤ (stepState s d).temp := by rw [hx]; exact le_max_left _ _
  have ht2 : (stepState s d).temp ≤ 95 := by
    rw [hx]; exact max_le (by norm_num) (min_le_right _ _)
  have hv1 : 3/2 ≤ (stepState s d).vib := by rw [hy]; exact le_max_left _ _
  have hv2 : (stepState s d).vib ≤ 8 := by
    rw [hy]; exact max_le (by norm_num) (min_le_right _ _)
  have hT := round2_bounds 6000 9500 (stepState s d).temp
    (by push_cast; linarith) (by push_cast; linarith)
  have hV := round2_bounds 150 800 (stepState s d).vib
    (by push_cast; linarith) (by push_cast; linarith)
  rw [stepMachine_temperature, stepMachine_vibration]
  norm_num at hT hV
  exact ⟨hT.1, hT.2, hV.1, hV.2, ht1, ht2, hv1, hv2⟩

/-- C2: starting from any baseline machine state, after every complete
tick the anomaly flag equals (countdown greater than 0) and the countdown
is never negative; the run quantifies over arbitrary tick prefixes, so
the equivalence holds at every tick boundary. -/
theorem anomaly_flag_matches_countdown (b : String × ℚ × ℚ) (ds : List Draws)
    (hb : b ∈ BASELINES) (hlen : ∀ d ∈ ds, 4 ≤ d.episodeLen) :
    (runMachine (initState b.2.1 b.2.2) ds).anomaly_active
      = decide (0 < (runMachine (initState b.2.1 b.2.2) ds).anomaly_steps) ∧
    0 ≤ (runMachine (initState b.2.1 b.2.2) ds).anomaly_steps :=
  runMachine_inv ds (initState b.2.1 b.2.2) hlen (by simp [initState]) (by simp [initState])

theorem anomaly_flag_matches_countdown_witness :
    (runMachine (initState 68 (5/2)) [onsetDraws]).anomaly_active
      = decide (0 < (runMachine (initState 68 (5/2)) [onsetDraws]).anomaly_steps) ∧
    0 ≤ (runMachine (initState 68 (5/2)) [onsetDraws]).anomaly_steps :=
  anomaly_flag_matches_countdown ("M-1", 68, 5/2) [onsetDraws]
    (by simp [BASELINES])
    (by intro d hd; rw [List.mem_singleton] at hd; subst hd; norm_num [onsetDraws])

/-- C7 (counterexample): starting the tick with one remaining anomaly
step, the tick deactivates the flag (post-update flag false) yet draws
units from the degraded draw, not the normal one; so the units draw does
not reflect the post-update anomaly flag. -/
theorem units_postflag_counterexample :
    (stepMachine 0 "M-1" ctrState ctrDraws).1.anomaly_active = false ∧
    (stepMachine 0 "M-1" ctrState ctrDraws).2.units = ctrDraws.unitsDegraded ∧
    ctrDraws.unitsDegraded = 6 ∧ ctrDraws.unitsNormal = 15 ∧
    ¬((stepMachine 0 "M-1" ctrState ctrDraws).2.units = ctrDraws.unitsDegraded ↔
      (stepMachine 0 "M-1" ctrState ctrDraws).1.anomaly_active = true) := by
  refine ⟨rfl, rfl, rfl, rfl, ?_⟩
  intro h
  exact absurd (h.mp rfl) (by decide)

/-- C7 (amended): units are drawn from the degraded range exactly when
the anomaly indicator of the tick (the flag after the onset step, equal
to the emitted anomaly field, true for every tick of the episode
including its final tick) is set, not the post-update flag. -/
theorem units_follow_tick_anomaly (t : ℤ) (m : String) (s : MachineState) (d : Draws)
    (hN1 : 12 ≤ d.unitsNormal) (hN2 : d.unitsNormal ≤ 18)
    (hD1 : 6 ≤ d.unitsDegraded) (hD2 : d.unitsDegraded ≤ 10) :
    ((stepMachine t m s d).2.anomaly = 1 ↔ (s.anomaly_active = true ∨ d.onset = true)) ∧
    ((stepMachine t m s d).2.anomaly = 0 →
      (stepMachine t m s d).2.units = d.unitsNormal ∧
      12 ≤ (stepMachine t m s d).2.units ∧ (stepMachine t m s d).2.units ≤ 18) ∧
    ((stepMachine t m s d).2.anomaly = 1 →
      (stepMachine t m s d).2.units = d.unitsDegraded ∧
      6 ≤ (stepMachine t m s d).2.units ∧ (stepMachine t m s d).2.units ≤ 10) := by
  cases hA : s.anomaly_active <;> cases hO : d.onset <;>
    simp [stepMachine, hA, hO, hN1, hN2, hD1, hD2]

theorem units_follow_tick_anomaly_witness :
    ((stepMachine 0 "M-1" ctrState ctrDraws).2.anomaly = 1 ↔
      (ctrState.anomaly_active = true ∨ ctrDraws.onset = true)) ∧
    ((stepMachine 0 "M-1" ctrState ctrDraws).2.anomaly = 0 →
      (stepMachine 0 "M-1" ctrState ctrDraws).2.units = ctrDraws.unitsNormal ∧
      12 ≤ (stepMachine 0 "M-1" ctrState ctrDraws).2.units ∧
      (stepMachine 0 "M-1" ctrState ctrDraws).2.units ≤ 18) ∧
    ((stepMachine 0 "M-1" ctrState ctrDraws).2.anomaly = 1 →
      (stepMachine 0 "M-1" ctrState ctrDraws).2.units = ctrDraws.unitsDegraded ∧
      6 ≤ (stepMachine 0 "M-1" ctrState ctrDraws).2.units ∧
      (stepMachine 0 "M-1" ctrState ctrDraws).2.units ≤ 10) :=
  units_follow_tick_anomaly 0 "M-1" ctrState ctrDraws
    (by decide) (by decide) (by decide) (by decide)

/-- C8: when an episode is triggered on a tick (onset succeeds from an
inactive state, with the drawn length in [4, 7]), the triggering tick
emits the anomaly mark, the flag stays set at the end of every one of the
following ticks while fewer than length-many episode ticks have elapsed,
and it is clear at the end of the final episode tick: the episode lasts
exactly the drawn number of ticks, between 4 and 7, counting the
triggering tick. -/
theorem anomaly_episode_duration (t : ℤ) (m : String) (s : MachineState) (d : Draws)
    (ds : List Draws) (k : ℕ)
    (hna : s.anomaly_active = false) (honset : d.onset = true)
    (hlo : 4 ≤ d.episodeLen) (hhi : d.episodeLen ≤ 7)
    (hk : k ≤ ds.length) (hkle : (k : ℤ) ≤ d.episodeLen - 1) :
    (stepMachine t m s d).2.anomaly = 1 ∧
    (stepState s d).anomaly_active = true ∧
    (stepState s d).anomaly_steps = d.episodeLen - 1 ∧
    (runMachine (stepState s d) (ds.take k)).anomaly_active
      = decide ((k : ℤ) < d.episodeLen - 1) := by
  obtain ⟨hs1, ha1⟩ := stepState_of_onset s d hna honset
  have hA : (stepState s d).anomaly_active = true := by
    rw [ha1]; exact decide_eq_true (by omega)
  have hcd := runMachine_countdown k ds (stepState s d) (d.episodeLen - 1) hA hs1
    (by omega) hkle hk
  refine ⟨?_, hA, hs1, hcd.2⟩
  simp [stepMachine, hna, honset]

theorem anomaly_episode_duration_witness :
    (stepMachine 0 "M-1" (initState 68 (5/2)) onsetDraws).2.anomaly = 1 ∧
    (stepState (initState 68 (5/2)) onsetDraws).anomaly_active = true ∧
    (stepState (initState 68 (5/2)) onsetDraws).anomaly_steps = onsetDraws.episodeLen - 1 ∧
    (runMachine (stepState (initState 68 (5/2)) onsetDraws)
        ([calmDraws, calmDraws, calmDraws].take 3)).anomaly_active
      = decide (((3 : ℕ) : ℤ) < onsetDraws.episodeLen - 1) :=
  anomaly_episode_duration 0 "M-1" (initState 68 (5/2)) onsetDraws
    [calmDraws, calmDraws, calmDraws] 3 rfl rfl
    (by decide) (by decide) (by decide) (by decide)

/-! Lemmas about the analytics helpers. -/

theorem latest_eq_none_iff (l : List Sample) : latest l = none ↔ l = [] := by
  induction l with
  | nil => simp [latest]
  | cons a rest ih =>
    cases rest with
    | nil => simp [latest]
    | cons b r =>
      rw [show latest (a :: b :: r) = latest (b :: r) from rfl]
      simp only [ih]
      simp

theorem latest_mem (l : List Sample) : ∀ x, latest l = some x → x ∈ l := by
  induction l with
  | nil => intro x h; simp [latest] at h
  | cons a rest ih =>
    intro x h
    cases rest with
    | nil =>
      simp [latest] at h
      subst h
      exact List.mem_cons_self a []
    | cons b r =>
      exact List.mem_cons_of_mem a (ih x h)

theorem latest_max (l : List Sample) : ∀ x, l.Pairwise tsLe → latest l = some x →
    ∀ y ∈ l, y.timestamp ≤ x.timestamp := by
  induction l with
  | nil => intro x _ h; simp [latest] at h
  | cons a rest ih =>
    intro x hp h y hy
    rcases List.pairwise_cons.mp hp with ⟨hhead, htail⟩
    cases rest with
    | nil =>
      simp [latest] at h
      subst h
      rcases List.mem_singleton.mp hy with rfl
      exact le_refl _
    | cons b r =>
      have h2 : latest (b :: r) = some x := h
      rcases List.mem_cons.mp hy with rfl | hy2
      · exact hhead x (latest_mem _ x h2)
      · exact ih x htail h2 y hy2

theorem idxmaxTemp_eq_none_iff (l : List Sample) : idxmaxTemp l = none ↔ l = [] := by
  cases l with
  | nil => simp [idxmaxTemp]
  | cons s rest =>
    simp only [idxmaxTemp]
    cases h : idxmaxTemp rest with
    | none => simp
    | some b =>
      split
      · simp
      · split <;> simp

theorem idxmaxTemp_mem (l : List Sample) : ∀ p, idxmaxTemp l = some p → p ∈ l := by
  induction l with
  | nil => intro p h; simp [idxmaxTemp] at h
  | cons s rest ih =>
    intro p h
    have h2 : (match idxmaxTemp rest with
      | none => some s
      | some b => if s.temperature < b.temperature then some b else some s) = some p := h
    cases hr : idxmaxTemp rest with
    | none =>
      rw [hr] at h2
      have h3 : s = p := Option.some.inj h2
      rw [← h3]
      exact List.mem_cons_self _ _
    | some b =>
      rw [hr] at h2
      have h3 : (if s.temperature < b.temperature then some b else some s) = some p := h2
      split_ifs at h3 with hc
      · exact List.mem_cons_of_mem _ (ih p (by rw [hr, Option.some.inj h3]))
      · rw [← Option.some.inj h3]
        exact List.mem_cons_self _ _

theorem idxmaxTemp_ge (l : List Sample) : ∀ p, idxmaxTemp l = some p →
    ∀ x ∈ l, x.temperature ≤ p.temperature := by
  induction l with
  | nil => intro p h; simp [idxmaxTemp] at h
  | cons s rest ih =>
    intro p h x hx
    have h2 : (match idxmaxTemp rest with
      | none => some s
      | some b => if s.temperature < b.temperature then some b else some s) = some p := h
    cases hr : idxmaxTemp rest with
    | none =>
      rw [hr] at h2
      have h3 : s = p := Option.some.inj h2
      have hre : rest = [] := (idxmaxTemp_eq_none_iff rest).mp hr
      rcases List.mem_cons.mp hx with rfl | hx2
      · rw [h3]
      · rw [hre] at hx2; simp at hx2
    | some b =>
      rw [hr] at h2
      have h3 : (if s.temperature < b.temperature then some b else some s) = some p := h2
      rcases List.mem_cons.mp hx with rfl | hx2
      · split_ifs at h3 with hc
        · rw [← Option.some.inj h3]; exact le_of_lt hc
        · rw [← Option.some.inj h3]
      · have hxb : x.temperature ≤ b.temperature := ih b hr x hx2
        split_ifs at h3 with hc
        · rw [← Option.some.inj h3]; exact hxb
        · rw [← Option.some.inj h3]; exact le_trans hxb (le_of_not_lt hc)

theorem idxmaxTemp_first (l : List Sample) : ∀ p, l.Pairwise tsLe → idxmaxTemp l = some p →
    ∀ x ∈ l, x.temperature = p.temperature → p.timestamp ≤ x.timestamp := by
  induction l with
  | nil => intro p _ h; simp [idxmaxTemp] at h
  | cons s rest ih =>
    intro p hp h x hx hteq
    rcases List.pairwise_cons.mp hp with ⟨hhead, htail⟩
    have h2 : (match idxmaxTemp rest with
      | none => some s
      | some b => if s.temperature < b.temperature then some b else some s) = some p := h
    cases hr : idxmaxTemp rest with
    | none =>
      rw [hr] at h2
      have h3 : s = p := Option.some.inj h2
      have hre : rest = [] := (idxmaxTemp_eq_none_iff rest).mp hr
      rcases List.mem_cons.mp hx with rfl | hx2
      · rw [← h3]
      · rw [hre] at hx2; simp at hx2
    | some b =>
      rw [hr] at h2
      have h3 : (if s.temperature < b.temperature then some b else some s) = some p := h2
      split_ifs at h3 with hc
      · have hbp : b = p := Option.some.inj h3
        rcases List.mem_cons.mp hx with rfl | hx2
        · exfalso
          rw [hbp] at hc
          exact absurd hteq (ne_of_lt hc)
        · exact ih p htail (by rw [hr, hbp]) x hx2 hteq
      · have hsp : s = p := Option.some.inj h3
        rcases List.mem_cons.mp hx with rfl | hx2
        · rw [← hsp]
        · rw [← hsp]
          exact hhead x hx2

theorem classify_eq_CRITICAL_iff (s : Sample) (th : Thresholds) :
    classify s th = .CRITICAL ↔
      (th.tempCritical ≤ s.temperature ∨ th.vibCritical ≤ s.vibration) := by
  unfold classify
  split_ifs with h1 h2
  · simp [h1]
  · simp [h1, h2]
  · simp [h1, h2]

theorem classify_eq_WARNING_iff (s : Sample) (th : Thresholds) :
    classify s th = .WARNING ↔
      (¬(th.tempCritical ≤ s.temperature ∨ th.vibCritical ≤ s.vibration) ∧
       (th.tempWarning ≤ s.temperature ∨ th.vibWarning ≤ s.vibration)) := by
  unfold classify
  split_ifs with h1 h2
  · simp [h1]
  · simp [h1, h2]
  · simp [h1, h2]

theorem classify_eq_NORMAL_iff (s : Sample) (th : Thresholds) :
    classify s th = .NORMAL ↔
      (¬(th.tempCritical ≤ s.temperature ∨ th.vibCritical ≤ s.vibration) ∧
       ¬(th.tempWarning ≤ s.temperature ∨ th.vibWarning ≤ s.vibration)) := by
  unfold classify
  split_ifs with h1 h2
  · simp [h1]
  · simp [h1, h2]
  · simp [h1, h2]

/-- C3: classify returns CRITICAL iff temperature or vibration reaches
the critical threshold, otherwise WARNING iff either reaches the warning
threshold, otherwise NORMAL; with the default thresholds a temperature of
exactly 85 is CRITICAL regardless of vibration, and a sample at 84.99
with vibration below 6.5 is WARNING exactly when its temperature reaches
80. -/
theorem classify_spec (s s85 s99 : Sample) (th : Thresholds)
    (h85 : s85.temperature = 85) (h99t : s99.temperature = 8499/100)
    (h99v : s99.vibration < 13/2) :
    (classify s th = .CRITICAL ↔
      (th.tempCritical ≤ s.temperature ∨ th.vibCritical ≤ s.vibration)) ∧
    (classify s th = .WARNING ↔
      (¬(th.tempCritical ≤ s.temperature ∨ th.vibCritical ≤ s.vibration) ∧
       (th.tempWarning ≤ s.temperature ∨ th.vibWarning ≤ s.vibration))) ∧
    (classify s th = .NORMAL ↔
      (¬(th.tempCritical ≤ s.temperature ∨ th.vibCritical ≤ s.vibration) ∧
       ¬(th.tempWarning ≤ s.temperature ∨ th.vibWarning ≤ s.vibration))) ∧
    classify s85 defaultThresholds = .CRITICAL ∧
    (classify s99 defaultThresholds = .WARNING ↔ (80 : ℚ) ≤ s99.temperature) := by
  have h80 : (80 : ℚ) ≤ s99.temperature := by rw [h99t]; norm_num
  have hnc : ¬(defaultThresholds.tempCritical ≤ s99.temperature ∨
      defaultThresholds.vibCritical ≤ s99.vibration) := by
    simp only [defaultThresholds]
    push_neg
    exact ⟨by rw [h99t]; norm_num, by linarith⟩
  refine ⟨classify_eq_CRITICAL_iff s th, classify_eq_WARNING_iff s th,
    classify_eq_NORMAL_iff s th, ?_, ?_⟩
  · exact (classify_eq_CRITICAL_iff s85 defaultThresholds).mpr
      (Or.inl (by rw [h85]; norm_num [defaultThresholds]))
  · constructor
    · intro _; exact h80
    · intro hw
      exact (classify_eq_WARNING_iff s99 defaultThresholds).mpr ⟨hnc, Or.inl hw⟩

theorem classify_spec_witness :
    (classify sampleA defaultThresholds = .CRITICAL ↔
      (defaultThresholds.tempCritical ≤ sampleA.temperature ∨
       defaultThresholds.vibCritical ≤ sampleA.vibration)) ∧
    (classify sampleA defaultThresholds = .WARNING ↔
      (¬(defaultThresholds.tempCritical ≤ sampleA.temperature ∨
         defaultThresholds.vibCritical ≤ sampleA.vibration) ∧
       (defaultThresholds.tempWarning ≤ sampleA.temperature ∨
        defaultThresholds.vibWarning ≤ sampleA.vibration))) ∧
    (classify sampleA defaultThresholds = .NORMAL ↔
      (¬(defaultThresholds.tempCritical ≤ sampleA.temperature ∨
         defaultThresholds.vibCritical ≤ sampleA.vibration) ∧
       ¬(defaultThresholds.tempWarning ≤ sampleA.temperature ∨
         defaultThresholds.vibWarning ≤ sampleA.vibration))) ∧
    classify hotSample defaultThresholds = .CRITICAL ∧
    (classify warmSample defaultThresholds = .WARNING ↔
      (80 : ℚ) ≤ warmSample.temperature) :=
  classify_spec sampleA hotSample warmSample defaultThresholds rfl rfl
    (by norm_num [warmSample])

/-- C4: on a non-empty timestamp-ordered sequence, latest returns a
member whose timestamp dominates every member (for a singleton, that
element); on the empty sequence it returns the distinguishable empty
outcome instead of a sample, and it is empty-valued only there. -/
theorem latest_spec (samples samples2 : List Sample) (s x s0 : Sample)
    (hs : samples.Pairwise tsLe) (hlast : latest samples = some s) (hx : x ∈ samples) :
    x.timestamp ≤ s.timestamp ∧ s ∈ samples ∧
    (latest samples2 = none ↔ samples2 = []) ∧ latest [s0] = some s0 :=
  ⟨latest_max samples s hs hlast x hx, latest_mem samples s hlast,
   latest_eq_none_iff samples2, rfl⟩

theorem latest_spec_witness :
    sampleA.timestamp ≤ sampleB.timestamp ∧ sampleB ∈ [sampleA, sampleB] ∧
    (latest ([] : List Sample) = none ↔ ([] : List Sample) = []) ∧
    latest [sampleA] = some sampleA :=
  latest_spec [sampleA, sampleB] [] sampleB sampleA sampleA
    (by decide) rfl (by decide)

/-- C5: the daily peak over a timestamp-ordered sequence is a sample of
the requested calendar day whose temperature dominates every sample of
that day, with ties resolved toward the earliest timestamp; it is none
exactly when the day has no samples; and on the concrete
10:00/10:05/10:10 day with temperatures 70/92/81 it is the 10:05
sample. -/
theorem dailyPeak_spec (samples samples2 : List Sample) (day day2 off off2 : ℤ)
    (p x : Sample)
    (hs : samples.Pairwise tsLe) (hp : dailyPeak samples day off = some p)
    (hx : x ∈ samples) (hxd : dateInTz off x.timestamp = day) :
    p ∈ samples ∧ dateInTz off p.timestamp = day ∧
    x.temperature ≤ p.temperature ∧
    (x.temperature = p.temperature → p.timestamp ≤ x.timestamp) ∧
    (dailyPeak samples2 day2 off2 = none ↔
      samples2.filter (fun s => dateInTz off2 s.timestamp == day2) = []) ∧
    dailyPeak [sampleA, sampleB, sampleC] 0 IST_OFFSET = some sampleB := by
  have hpf := idxmaxTemp_mem _ p hp
  have hxf : x ∈ samples.filter (fun s => dateInTz off s.timestamp == day) :=
    List.mem_filter.mpr ⟨hx, by simp [hxd]⟩
  have hsf : (samples.filter (fun s => dateInTz off s.timestamp == day)).Pairwise tsLe :=
    hs.filter _
  rcases List.mem_filter.mp hpf with ⟨hpmem, hpday⟩
  refine ⟨hpmem, by simpa using hpday, idxmaxTemp_ge _ p hp x hxf,
    fun he => idxmaxTemp_first _ p hsf hp x hxf he,
    idxmaxTemp_eq_none_iff _, by decide⟩

theorem dailyPeak_spec_witness :
    sampleB ∈ [sampleA, sampleB, sampleC] ∧
    dateInTz IST_OFFSET sampleB.timestamp = 0 ∧
    sampleA.temperature ≤ sampleB.temperature ∧
    (sampleA.temperature = sampleB.temperature → sampleB.timestamp ≤ sampleA.timestamp) ∧
    (dailyPeak ([] : List Sample) 0 IST_OFFSET = none ↔
      List.filter (fun s => dateInTz IST_OFFSET s.timestamp == 0) ([] : List Sample) = []) ∧
    dailyPeak [sampleA, sampleB, sampleC] 0 IST_OFFSET = some sampleB :=
  dailyPeak_spec [sampleA, sampleB, sampleC] [] 0 0 IST_OFFSET IST_OFFSET sampleB sampleA
    (by decide) (by decide) (by decide) (by decide)

/-- C6: the context window contains a sample exactly when it lies in the
input and its timestamp is within the closed interval of radius around
the center; it is a subsequence of the input in unchanged timestamp
order; and with center 10:05 and radius 10 minutes the concrete
10:00/10:05/10:10 set is returned whole. -/
theorem contextWindow_spec (samples : List Sample) (center radius : ℤ) (x : Sample)
    (hs : samples.Pairwise tsLe) :
    (x ∈ contextWindow samples center radius ↔
      (x ∈ samples ∧ center - radius ≤ x.timestamp ∧ x.timestamp ≤ center + radius)) ∧
    (contextWindow samples center radius).Sublist samples ∧
    (contextWindow samples center radius).Pairwise tsLe ∧
    contextWindow [sampleA, sampleB, sampleC] 16500 600 = [sampleA, sampleB, sampleC] := by
  refine ⟨?_, List.filter_sublist _, hs.filter _, by decide⟩
  simp [contextWindow, List.mem_filter, and_assoc]

theorem contextWindow_spec_witness :
    (sampleA ∈ contextWindow [sampleA, sampleB, sampleC] 16500 600 ↔
      (sampleA ∈ [sampleA, sampleB, sampleC] ∧
       16500 - 600 ≤ sampleA.timestamp ∧ sampleA.timestamp ≤ 16500 + 600)) ∧
    (contextWindow [sampleA, sampleB, sampleC] 16500 600).Sublist
      [sampleA, sampleB, sampleC] ∧
    (contextWindow [sampleA, sampleB, sampleC] 16500 600).Pairwise tsLe ∧
    contextWindow [sampleA, sampleB, sampleC] 16500 600 = [sampleA, sampleB, sampleC] :=
  contextWindow_spec [sampleA, sampleB, sampleC] 16500 600 sampleA (by decide)

/-- C9: appending a batch B to the empty store and querying the full
time range for machine m returns exactly the samples of B for m, as a
subsequence of B in append order, with nothing added, dropped or
reordered. -/
theorem append_query_roundtrip (B : List Sample) (m : String) (x : Sample) :
    queryStore (appendStore [] B) m = B.filter (fun s => s.machine_id == m) ∧
    (queryStore (appendStore [] B) m).Sublist B ∧
    (x ∈ queryStore (appendStore [] B) m ↔ (x ∈ B ∧ x.machine_id = m)) := by
  refine ⟨by simp [queryStore, appendStore], ?_, ?_⟩
  · simp only [queryStore, appendStore, List.nil_append]
    exact List.filter_sublist _
  · simp [queryStore, appendStore, List.mem_filter]

theorem zip_step_map_machine (t : ℤ) : ∀ (ms : List String) (ss : List MachineState)
    (dd : List Draws), ss.length = ms.length → dd.length = ms.length →
    ((List.zipWith (fun (m : String) (sd : MachineState × Draws) => stepMachine t m sd.1 sd.2)
      ms (ss.zip dd)).map Prod.snd).map (fun r => r.machine_id) = ms := by
  intro ms
  induction ms with
  | nil => intro ss dd _ _; simp
  | cons m ms2 ih =>
    intro ss dd hss hdd
    cases ss with
    | nil => simp at hss
    | cons s ss2 =>
      cases dd with
      | nil => simp at hdd
      | cons d dd2 =>
        simp only [List.zip_cons_cons, List.zipWith_cons_cons, List.map_cons,
          stepMachine_machine]
        rw [ih ss2 dd2 (by simpa using hss) (by simpa using hdd)]

theorem zip_step_timestamp (t : ℤ) : ∀ (ms : List String) (ss : List MachineState)
    (dd : List Draws) (x : Sample),
    x ∈ (List.zipWith (fun (m : String) (sd : MachineState × Draws) => stepMachine t m sd.1 sd.2)
      ms (ss.zip dd)).map Prod.snd → x.timestamp = t := by
  intro ms
  induction ms with
  | nil => intro ss dd x hx; simp at hx
  | cons m ms2 ih =>
    intro ss dd x hx
    cases ss with
    | nil => simp at hx
    | cons s ss2 =>
      cases dd with
      | nil => simp at hx
      | cons d dd2 =>
        simp only [List.zip_cons_cons, List.zipWith_cons_cons, List.map_cons,
          List.mem_cons] at hx
        rcases hx with rfl | hx2
        · exact stepMachine_timestamp t m s d
        · exact ih ss2 dd2 x hx2

/-- C10: a tick over full state and draw lists emits exactly one sample
per known machine, in fleet order over the duplicate-free machine list;
every sample of the batch carries the tick timestamp captured once at
the start; and under the refresh gate (next tick only at or after the
previous time plus the refresh period of at least 2 seconds) the next
tick timestamp is strictly larger. -/
theorem tick_batch_structure (t t2 refresh : ℤ) (states : List MachineState)
    (draws : List Draws) (x : Sample)
    (hs : states.length = MACHINES.length) (hd : draws.length = MACHINES.length)
    (hx : x ∈ (generate_live_data t states draws).2)
    (hr : 2 ≤ refresh) (hg : t + refresh ≤ t2) :
    (generate_live_data t states draws).2.map (fun r => r.machine_id) = MACHINES ∧
    MACHINES.Nodup ∧ x.timestamp = t ∧ t < t2 :=
  ⟨zip_step_map_machine t MACHINES states draws hs hd,
   by decide,
   zip_step_timestamp t MACHINES states draws x hx,
   by omega⟩

theorem tick_batch_structure_witness :
    (generate_live_data 0 (List.replicate 5 (initState 68 (5/2)))
        (List.replicate 5 calmDraws)).2.map (fun r => r.machine_id) = MACHINES ∧
    MACHINES.Nodup ∧
    (stepMachine 0 "M-1" (initState 68 (5/2)) calmDraws).2.timestamp = 0 ∧
    (0 : ℤ) < 5 :=
  tick_batch_structure 0 5 2 (List.replicate 5 (initState 68 (5/2)))
    (List.replicate 5 calmDraws)
    ((stepMachine 0 "M-1" (initState 68 (5/2)) calmDraws).2)
    rfl rfl (List.mem_cons_self _ _) (by norm_num) (by norm_num)
